import Mathlib

/-!
Verification development for the pyofficedom repository.

Shallow embedding of the identity-cache / lifecycle layer of
`src/officedom/word.py` and `src/officedom/utils.py`:

* COM handles are opaque values (`Handle := Nat`); the host's notion of
  handle equality is an explicit boolean relation `hostEq` passed to every
  operation, because COM object identity is host-defined, not structural.
* Python exceptions become an explicit error enumeration `PyErr`
  (`ValueError` raised by `ReadOnlyList.get_wrapper`, `IndexError` from
  list indexing, `pythoncom.com_error` from host calls, ...).
* `_LightDocument` (the snapshot) is the structure `LightDocument`; its
  Python 2 dict of writing styles is modelled as an association list with
  insert-or-overwrite semantics (`dict_insert`).
* The mutable collections `_Documents` / `_Templates` are a `WordState`
  holding the two wrapper lists plus a construction counter `nextId` that
  serves as the Python object identity of each wrapper (each `_Document` /
  `_Template` construction, which also captures its snapshot, bumps it).
* Host behaviour (what `Documents.Open`, `doc.AttachedTemplate`,
  `Application.Templates`, ... return) is passed in as explicit function
  parameters; hypotheses of the theorems spell out the host facts used.
-/

/-- Opaque COM handle owned by the automation host. -/
abbrev Handle := Nat

/-- Python exception kinds raised by the code under analysis.
`valueError` is what `ReadOnlyList.get_wrapper` and `list.remove` raise
(the spec's `NotFoundError` taxonomy entry); `comError` is
`pythoncom.com_error` raised by host calls. -/
inductive PyErr
  | valueError
  | typeError
  | indexError
  | keyError
  | comError
deriving DecidableEq, Repr

/-- Python 2 `str.lower()`: character-wise lowering. -/
def py_lower (s : String) : String := String.mk (s.data.map Char.toLower)

/-- `NO_OBJ` sentinel from `word.py`. -/
def NO_OBJ : String := "none"

/-- A host language object (`_Language` raw data): `ID`, `Name`, `NameLocal`.
`ID` is kept as a string; `_style_entry` converts values through
`attr_val.__class__(str(attr_val).lower())`, which on the digits of an ID is
the identity, so a uniform string model is faithful. -/
structure Lang where
  id : String
  name : String
  nameLocal : String
deriving DecidableEq, Repr

/-- Observable properties of a raw (host-side) document, as read during
`_LightDocument.__init__` and `_Document` accessors.  `style lang` is
`doc.ActiveWritingStyle(lang.ID)`: `none` models the `pythoncom.com_error`
raised for an unsupported language. -/
structure RawDoc where
  activeTheme : String
  tmplFullName : String
  tmplHandle : Handle
  docName : String
  style : Lang → Option String

/-- Observable properties of a raw (host-side) template. -/
structure RawTmpl where
  fullName : String
  tmplName : String
  autoText : List (String × String)

/-- `_LightDocument`: the document snapshot.  `activeTheme` is the stored
`_active_theme`, `tmpl` the stored `_tmpl` (attached template full name),
`activeWritingStyle` the captured per-language style dict. -/
structure LightDocument where
  activeTheme : String
  tmpl : String
  activeWritingStyle : List (String × String)
deriving DecidableEq, Repr

/-- `_LightDocument.active_theme` property: returns the stored theme
lower-cased. -/
def LightDocument.active_theme (d : LightDocument) : String := py_lower d.activeTheme

/-- `_LightDocument.attached_template` property: returns the stored template
full name lower-cased. -/
def LightDocument.attached_template (d : LightDocument) : String := py_lower d.tmpl

/-- `_Document.name` property: host `Name` lower-cased. -/
def document_name (r : RawDoc) : String := py_lower r.docName

/-- `_Template.full_name` property: host `FullName` lower-cased. -/
def template_full_name (t : RawTmpl) : String := py_lower t.fullName

/-- `_Template.name` property: host `Name` lower-cased. -/
def template_name (t : RawTmpl) : String := py_lower t.tmplName

/-- One-key Python dict insertion: overwrite the value when the key is
present, append otherwise. -/
def dict_insert (m : List (String × String)) (kv : String × String) :
    List (String × String) :=
  if m.any fun p => p.1 == kv.1 then
    m.map fun p => if p.1 == kv.1 then (p.1, kv.2) else p
  else m ++ [kv]

/-- Python `dict.update` with an iterable of pairs. -/
def dict_update (m : List (String × String)) (kvs : List (String × String)) :
    List (String × String) :=
  kvs.foldl dict_insert m

/-- `getattr(lang, attr)` for the key language attributes used by
`_LightDocument._style_entry`. -/
def lang_attr (lg : Lang) : String → String
  | "ID" => lg.id
  | "Name" => lg.name
  | "NameLocal" => lg.nameLocal
  | _ => ""

/-- `_LightDocument._style_entry`: a `(lower-cased language attribute,
lower-cased style)` pair. -/
def style_entry (lg : Lang) (style attr : String) : String × String :=
  (py_lower (lang_attr lg attr), py_lower style)

/-- One iteration of the per-language loop of `_LightDocument.__init__`:
query `ActiveWritingStyle`; a host failure (`none`) is caught (`except
pythoncom.com_error: pass`) and the language skipped, otherwise the dict is
updated with entries keyed by the language's `ID`, `Name` and `NameLocal`. -/
def capture_step (styleOf : Lang → Option String)
    (acc : List (String × String)) (lg : Lang) : List (String × String) :=
  match styleOf lg with
  | none => acc
  | some style =>
      dict_update acc (["ID", "Name", "NameLocal"].map (style_entry lg style))

/-- The whole per-language capture loop of `_LightDocument.__init__`. -/
def capture_styles (styleOf : Lang → Option String) (langs : List Lang) :
    List (String × String) :=
  langs.foldl (capture_step styleOf) []

/-- `_LightDocument.__init__`: capture `ActiveTheme`,
`AttachedTemplate.FullName` and the writing-style dict from the raw
document. -/
def capture (langs : List Lang) (d : RawDoc) : LightDocument :=
  { activeTheme := d.activeTheme
    tmpl := d.tmplFullName
    activeWritingStyle := capture_styles d.style langs }

/-- Value of a public attribute of a `_LightDocument` as seen by
`getattr` in `LightObject.__eq__`: a string property, the style dict, or a
bound method. -/
inductive PyVal
  | str (s : String)
  | dict (m : List (String × String))
  | method
deriving DecidableEq, Repr

/-- The non-underscore entries of `dir(self)` for a `_LightDocument`, in
`dir`'s sorted order: the two properties, the dict attribute and the
`sync` method. -/
def light_doc_dir : List String :=
  ["active_theme", "active_writing_style", "attached_template", "sync"]

/-- `getattr(d, name)` for the public attributes of `_LightDocument`;
properties evaluate to their (lower-cased) values. -/
def light_doc_getattr (d : LightDocument) : String → PyVal
  | "active_theme" => .str d.active_theme
  | "active_writing_style" => .dict d.activeWritingStyle
  | "attached_template" => .str d.attached_template
  | _ => .method

/-- `callable(v)` for the attribute values above. -/
def py_callable : PyVal → Bool
  | .method => true
  | _ => false

/-- `LightObject.__eq__` specialised to `_LightDocument`: every public
non-callable attribute of `self` must compare equal on `other`. -/
def light_object_eq (d1 d2 : LightDocument) : Bool :=
  light_doc_dir.all fun a =>
    if py_callable (light_doc_getattr d1 a) then true
    else light_doc_getattr d1 a == light_doc_getattr d2 a

/-- `LightObject.__ne__`: `not self == other`. -/
def light_object_ne (d1 d2 : LightDocument) : Bool := !(light_object_eq d1 d2)

/-- Theme state of the external document, as mutated by the two host
operations `sync` can invoke. -/
inductive ThemeState
  | cleared
  | applied (v : String)
deriving DecidableEq, Repr

/-- External (host-side) mutable document state touched or not touched by
`_LightDocument.sync`.  `writingStyleProp` stands for the host's
`ActiveWritingStyle` property, which has no write operation. -/
structure ExtDoc where
  theme : ThemeState
  attachedTemplate : String
  writingStyleProp : Lang → Option String

/-- Host `doc.RemoveTheme()`. -/
def RemoveTheme (e : ExtDoc) : ExtDoc := { e with theme := .cleared }

/-- Host `doc.ApplyTheme(v)`. -/
def ApplyTheme (e : ExtDoc) (v : String) : ExtDoc := { e with theme := .applied v }

/-- `_LightDocument.sync`: push the theme (clear when the exposed
`active_theme` equals the sentinel, otherwise apply the stored value), then
write `AttachedTemplate`; the writing-style dict is never pushed. -/
def LightDocument.sync (d : LightDocument) (doc : ExtDoc) : ExtDoc :=
  let doc1 := if d.active_theme == NO_OBJ then RemoveTheme doc
              else ApplyTheme doc d.activeTheme
  { doc1 with attachedTemplate := d.tmpl }

/-- `_Document` wrapper: Python object identity `wid`, the COM handle it
wraps for its whole lifetime, and its snapshot (`self.data`). -/
structure DocWrapper where
  wid : Nat
  handle : Handle
  data : LightDocument
deriving DecidableEq, Repr

/-- `_Template` wrapper: object identity, wrapped handle, and its
`_LightTemplate` snapshot (the auto-text entry dict). -/
structure TmplWrapper where
  wid : Nat
  handle : Handle
  autoText : List (String × String)
deriving DecidableEq, Repr

/-- Combined local state of the document and template collections:
`docs` is `_Documents._wrapper_list`, `tmpls` is
`_Templates._wrapper_list`, and `nextId` is the construction counter that
models Python object identity of wrappers (every wrapper construction,
which also captures a snapshot, consumes one id). -/
structure WordState where
  docs : List DocWrapper
  tmpls : List TmplWrapper
  nextId : Nat
deriving Repr

/-- `ReadOnlyList.get_wrapper`: linear scan over the live wrapper list
comparing each candidate's stored handle with the queried raw handle using
host equality; first match wins; raises `ValueError` (the spec's
`NotFoundError`) when no wrapper matches. -/
def get_wrapper {α : Type} (hostEq : Handle → Handle → Bool) (rawOf : α → Handle) :
    List α → Handle → Except PyErr α
  | [], _ => .error .valueError
  | w :: rest, raw =>
      if hostEq (rawOf w) raw then .ok w else get_wrapper hostEq rawOf rest raw

/-- `_Documents._add_new_doc`: always construct a fresh `_Document`
(capturing its snapshot) and append it. -/
def add_new_doc (langs : List Lang) (props : Handle → RawDoc) (st : WordState)
    (raw : Handle) : DocWrapper × WordState :=
  let w : DocWrapper := { wid := st.nextId, handle := raw, data := capture langs (props raw) }
  (w, { st with docs := st.docs ++ [w], nextId := st.nextId + 1 })

/-- `_Documents.add_raw_doc`: return the existing wrapper when the raw
document is already wrapped, otherwise (the `ValueError` is caught) add a
new wrapper. -/
def add_raw_doc (hostEq : Handle → Handle → Bool) (langs : List Lang)
    (props : Handle → RawDoc) (st : WordState) (raw : Handle) :
    DocWrapper × WordState :=
  match get_wrapper hostEq DocWrapper.handle st.docs raw with
  | .ok w => (w, st)
  | .error _ => add_new_doc langs props st raw

/-- `_Templates.add`: append the (already constructed) template wrapper. -/
def templates_add (st : WordState) (t : TmplWrapper) : WordState :=
  { st with tmpls := st.tmpls ++ [t] }

/-- `_Documents._load_tmpl`: under the `if self.tmpls:` guard (truthiness of
the attached template collection, i.e. non-emptiness), resolve the raw
template; when unresolved (`ValueError` caught) construct a `_Template`
(capturing its `_LightTemplate` snapshot) and add it. -/
def load_tmpl (hostEq : Handle → Handle → Bool) (tprops : Handle → RawTmpl)
    (st : WordState) (rawTmpl : Handle) : WordState :=
  if st.tmpls.isEmpty then st
  else
    match get_wrapper hostEq TmplWrapper.handle st.tmpls rawTmpl with
    | .ok _ => st
    | .error _ =>
        templates_add { st with nextId := st.nextId + 1 }
          { wid := st.nextId, handle := rawTmpl, autoText := (tprops rawTmpl).autoText }

/-- `_Documents.open`: host `Open` first, then the load-if-absent check on
the opened document's attached template, then find-or-add the wrapper. -/
def docs_open (hostEq : Handle → Handle → Bool) (langs : List Lang)
    (props : Handle → RawDoc) (tprops : Handle → RawTmpl)
    (hostOpen : String → Handle) (st : WordState) (fileName : String) :
    DocWrapper × WordState :=
  let doc := hostOpen fileName
  let st1 := load_tmpl hostEq tprops st (props doc).tmplHandle
  add_raw_doc hostEq langs props st1 doc

/-- `_Documents.add`: host `Add` returns the new raw document, its template
is loaded if absent, and a new wrapper is always appended. -/
def docs_add (hostEq : Handle → Handle → Bool) (langs : List Lang)
    (props : Handle → RawDoc) (tprops : Handle → RawTmpl) (newDoc : Handle)
    (st : WordState) : DocWrapper × WordState :=
  let st1 := load_tmpl hostEq tprops st (props newDoc).tmplHandle
  add_new_doc langs props st1 newDoc

/-- Python `list.remove` on wrapper objects: delete the first element that
compares equal to the argument; wrappers have no `__eq__`, so equality is
object identity, modelled by `wid`.  (Python raises `ValueError` when no
element matches; callers below either guard the call or pass a member.) -/
def list_remove {α : Type} (p : α → Bool) : List α → List α
  | [] => []
  | x :: rest => if p x then rest else x :: list_remove p rest

/-- Membership of a template wrapper's handle in the host's current raw
template collection (`self._wrapper_list[count].raw_obj in self._raw_obj`),
using host equality element-wise. -/
def tmpl_is_live (hostEq : Handle → Handle → Bool) (live : List Handle)
    (w : TmplWrapper) : Bool :=
  live.any fun raw => hostEq w.handle raw

/-- Auxiliary length identity for `list_remove` with a guaranteed match. -/
theorem list_remove_length {α : Type} (p : α → Bool) (l : List α) (x : α)
    (hx : x ∈ l) (hp : p x = true) : (list_remove p l).length + 1 = l.length := by
  induction l with
  | nil => cases hx
  | cons y rest ih =>
      by_cases hy : p y = true
      · simp [list_remove, hy]
      · have hxr : x ∈ rest := by
          cases hx with
          | head => exact absurd hp hy
          | tail _ h => exact h
        simp only [list_remove, Bool.not_eq_true] at hy ⊢
        simp [hy, ih hxr]

/-- The `while` loop of `_Templates.cleanup`: walk the wrapper list by
index; a still-referenced template advances the cursor, an unreferenced one
is removed (via `list.remove` on the element at the cursor) without
advancing. -/
def cleanup_loop (hostEq : Handle → Handle → Bool) (live : List Handle)
    (l : List TmplWrapper) (count : Nat) : List TmplWrapper :=
  if h : count < l.length then
    if tmpl_is_live hostEq live (l.get ⟨count, h⟩) then
      cleanup_loop hostEq live l (count + 1)
    else
      cleanup_loop hostEq live
        (list_remove (fun w => w.wid == (l.get ⟨count, h⟩).wid) l) count
  else l
termination_by l.length - count
decreasing_by
  · omega
  · have hlen := list_remove_length (fun w => w.wid == (l.get ⟨count, h⟩).wid) l
      (l.get ⟨count, h⟩) (l.get_mem _ _) (by simp)
    omega

/-- `_Templates.cleanup`: run the sweep loop from cursor 0. -/
def templates_cleanup (hostEq : Handle → Handle → Bool) (live : List Handle)
    (st : WordState) : WordState :=
  { st with tmpls := cleanup_loop hostEq live st.tmpls 0 }

/-- `_Documents.remove`: remove the wrapper from the list (raising
`ValueError` when absent, as `list.remove` does), then sweep the template
collection. -/
def documents_remove (hostEq : Handle → Handle → Bool) (live : List Handle)
    (st : WordState) (d : DocWrapper) : Except PyErr WordState :=
  if st.docs.any fun w => w.wid == d.wid then
    .ok (templates_cleanup hostEq live
          { st with docs := list_remove (fun w => w.wid == d.wid) st.docs })
  else .error .valueError

/-- `_Document.close`: call the external `Close` (whose outcome is the
`closeRes` parameter); only when it returns does the parent collection's
`remove` (and through it the sweep) run.  Result: final local state and the
exception propagated to the caller, if any. -/
def document_close (hostEq : Handle → Handle → Bool) (live : List Handle)
    (closeRes : Except PyErr Unit) (st : WordState) (d : DocWrapper) :
    WordState × Option PyErr :=
  match closeRes with
  | .error e => (st, some e)
  | .ok _ =>
      match documents_remove hostEq live st d with
      | .ok st1 => (st1, none)
      | .error e => (st, some e)

/-- `_Documents.close`: external `Close` on the whole collection, then the
wrapper list is emptied and the template sweep runs. -/
def documents_close_all (hostEq : Handle → Handle → Bool) (live : List Handle)
    (closeRes : Except PyErr Unit) (st : WordState) : WordState × Option PyErr :=
  match closeRes with
  | .error e => (st, some e)
  | .ok _ => (templates_cleanup hostEq live { st with docs := [] }, none)

/-- Index/key argument of `ReadOnlyList.__getitem__`. -/
inductive Key
  | int (i : Int)
  | str (s : String)
  | slice (start stop step : Option Int)

/-- Result of a collection lookup: a single wrapper or a list view. -/
inductive GetResult (α : Type)
  | elem (w : α)
  | view (l : List α)
deriving DecidableEq, Repr

/-- Python list indexing `l[i]` for integers: negative indices count from
the end; out of range raises `IndexError`. -/
def py_int_index {α : Type} (l : List α) (i : Int) : Except PyErr α :=
  let j : Int := if i < 0 then i + l.length else i
  if j < 0 then .error .indexError
  else
    match l.get? j.toNat with
    | some w => .ok w
    | none => .error .indexError

/-- CPython slice index clamping for a positive step: into `[0, n]`. -/
def clamp_pos (v n : Int) : Int := if v < 0 then max 0 (v + n) else min v n

/-- CPython slice index clamping for a negative step: into `[-1, n-1]`. -/
def clamp_neg (v n : Int) : Int := if v < 0 then max (-1) (v + n) else min v (n - 1)

/-- Number of indices produced by an adjusted slice. -/
def slice_count (start stop step : Int) : Nat :=
  if 0 < step then ((max 0 (stop - start + step - 1)) / step).toNat
  else ((max 0 (start - stop + (-step) - 1)) / (-step)).toNat

/-- Python list slicing `l[start:stop:step]` (raises `ValueError` on a zero
step, which `__getitem__` does not catch). -/
def py_slice_elems {α : Type} (l : List α) (start stop step : Option Int) :
    Except PyErr (List α) :=
  let s := step.getD 1
  if s == 0 then .error .valueError
  else
    let n : Int := l.length
    let a := if 0 < s then clamp_pos (start.getD 0) n
             else clamp_neg (start.getD (n - 1)) n
    let b := if 0 < s then clamp_pos (stop.getD n) n
             else match stop with
                  | none => -1
                  | some v => clamp_neg v n
    .ok ((List.range (slice_count a b s)).filterMap fun k => l.get? (a + k * s).toNat)

/-- `ReadOnlyList.__getitem__`: integer and slice keys go to the wrapper
list (out-of-range integers raise `IndexError`); a string key raises
`TypeError` inside the list, which is caught, and the raw key is forwarded
to the host collection call (`self._raw_obj(key)`, outcome `hostKeyLookup`)
whose result is identity-resolved through `get_wrapper`. -/
def getitem {α : Type} (hostEq : Handle → Handle → Bool) (rawOf : α → Handle)
    (hostKeyLookup : String → Except PyErr Handle) (l : List α) :
    Key → Except PyErr (GetResult α)
  | .int i => (py_int_index l i).map .elem
  | .slice a b c => (py_slice_elems l a b c).map .view
  | .str s =>
      match hostKeyLookup s with
      | .error e => .error e
      | .ok h => (get_wrapper hostEq rawOf l h).map .elem

/-- Identity de-duplication predicate on a wrapper list: no two wrappers
wrap handles that compare equal under host equality. -/
def handles_nodup {α : Type} (hostEq : Handle → Handle → Bool) (rawOf : α → Handle)
    (l : List α) : Prop :=
  l.Pairwise fun a b => hostEq (rawOf a) (rawOf b) = false

/-- De-duplication of the document collection. -/
def docs_nodup (hostEq : Handle → Handle → Bool) (st : WordState) : Prop :=
  handles_nodup hostEq DocWrapper.handle st.docs

/-- De-duplication of the template collection. -/
def tmpls_nodup (hostEq : Handle → Handle → Bool) (st : WordState) : Prop :=
  handles_nodup hostEq TmplWrapper.handle st.tmpls

/-- Unfolding lemma: `light_object_eq` compares exactly the three exposed
snapshot fields (the two lower-casing properties and the style dict),
skipping the callable `sync` attribute. -/
theorem light_object_eq_iff (d1 d2 : LightDocument) :
    light_object_eq d1 d2 = true ↔
      d1.active_theme = d2.active_theme ∧
        d1.activeWritingStyle = d2.activeWritingStyle ∧
          d1.attached_template = d2.attached_template := by
  simp [light_object_eq, light_doc_dir, light_doc_getattr, py_callable]

/-- C5 — Snapshot equality: two snapshots are `==`-equal exactly when every
captured field (the active theme and attached template as the class exposes
them, and the read-only writing-style map) compares equal, and `!=` is the
negation of `==`. -/
theorem snapshot_eq_spec (d1 d2 : LightDocument) :
    (light_object_eq d1 d2 = true ↔
      d1.active_theme = d2.active_theme ∧
        d1.activeWritingStyle = d2.activeWritingStyle ∧
          d1.attached_template = d2.attached_template) ∧
    (light_object_ne d1 d2 = true ↔ ¬light_object_eq d1 d2 = true) := by
  refine ⟨light_object_eq_iff d1 d2, ?_⟩
  simp [light_object_ne]

/-- Skipped languages leave the capture fold unchanged. -/
theorem capture_styles_filter (styleOf : Lang → Option String) (langs : List Lang) :
    capture_styles styleOf langs =
      capture_styles styleOf (langs.filter fun lg => (styleOf lg).isSome) := by
  suffices h : ∀ acc : List (String × String),
      langs.foldl (capture_step styleOf) acc =
        (langs.filter fun lg => (styleOf lg).isSome).foldl (capture_step styleOf) acc by
    simpa [capture_styles] using h []
  induction langs with
  | nil => intro acc; rfl
  | cons lg rest ih =>
      intro acc
      cases hstyle : styleOf lg with
      | none => simp [List.filter_cons, hstyle, capture_step, ih]
      | some s => simp [List.filter_cons, hstyle, capture_step, hstyle, ih]

/-- C9 — Per-language capture suppression: a language whose
`ActiveWritingStyle` query fails is simply omitted (the captured map is the
one computed from the succeeding languages alone, and appending a failing
language changes nothing), the failure is not propagated (capture is total),
and the remaining fields are still captured. -/
theorem capture_suppression_spec :
    (∀ (styleOf : Lang → Option String) (langs : List Lang),
      capture_styles styleOf langs =
        capture_styles styleOf (langs.filter fun lg => (styleOf lg).isSome)) ∧
    (∀ (styleOf : Lang → Option String) (langs : List Lang) (lg : Lang),
      styleOf lg = none →
        capture_styles styleOf (langs ++ [lg]) = capture_styles styleOf langs) ∧
    (∀ (langs : List Lang) (d : RawDoc),
      (capture langs d).activeTheme = d.activeTheme ∧
        (capture langs d).tmpl = d.tmplFullName) := by
  refine ⟨capture_styles_filter, ?_, ?_⟩
  · intro styleOf langs lg hnone
    simp [capture_styles, List.foldl_append, capture_step, hnone]
  · intro langs d
    exact ⟨rfl, rfl⟩

/-- C9 witness: a concrete capture where the second of three languages
fails; its entries are absent, the others' present, and the scalar fields
are captured. -/
theorem capture_suppression_witness :
    (fun lg : Lang => if lg.id = "2" then none else some "Grammar") ⟨"2", "B", "BL"⟩
        = none ∧
      capture_styles
          (fun lg : Lang => if lg.id = "2" then none else some "Grammar")
          ([⟨"1", "A", "AL"⟩] ++ [⟨"2", "B", "BL"⟩]) =
        capture_styles
          (fun lg : Lang => if lg.id = "2" then none else some "Grammar")
          [⟨"1", "A", "AL"⟩] := by
  refine ⟨by decide, ?_⟩
  exact capture_suppression_spec.2.1
    (fun lg : Lang => if lg.id = "2" then none else some "Grammar")
    [⟨"1", "A", "AL"⟩] ⟨"2", "B", "BL"⟩ (by decide)

/-- C4 — Sync behaviour: syncing a snapshot pushes the writable fields to
the external document: the theme is cleared (`RemoveTheme`) when the
exposed active theme is the `NO_OBJ` sentinel and applied (`ApplyTheme`)
with the stored local value otherwise, the attached-template field is
written, and the read-only writing-style property of the external document
is never touched — mutating the snapshot's style map before sync still
leaves it unchanged. -/
theorem sync_spec (d : LightDocument) (doc : ExtDoc) :
    (d.active_theme = NO_OBJ →
      d.sync doc = { RemoveTheme doc with attachedTemplate := d.tmpl }) ∧
    (d.active_theme ≠ NO_OBJ →
      d.sync doc = { ApplyTheme doc d.activeTheme with attachedTemplate := d.tmpl }) ∧
    (d.sync doc).attachedTemplate = d.tmpl ∧
    (d.active_theme = NO_OBJ → (d.sync doc).theme = .cleared) ∧
    (d.active_theme ≠ NO_OBJ → (d.sync doc).theme = .applied d.activeTheme) ∧
    (∀ m, (LightDocument.sync { d with activeWritingStyle := m } doc).writingStyleProp
        = doc.writingStyleProp) := by
  by_cases h : d.active_theme = NO_OBJ
  · refine ⟨fun _ => ?_, fun hne => absurd h hne, ?_, fun _ => ?_, fun hne => absurd h hne, ?_⟩
    · simp [LightDocument.sync, h, RemoveTheme]
    · simp [LightDocument.sync, h, RemoveTheme]
    · simp [LightDocument.sync, h, RemoveTheme]
    · intro m
      simp [LightDocument.sync, RemoveTheme, ApplyTheme, LightDocument.active_theme]
      split <;> rfl
  · refine ⟨fun he => absurd he h, fun _ => ?_, ?_, fun he => absurd he h, fun _ => ?_, ?_⟩
    · simp [LightDocument.sync, h, ApplyTheme]
    · simp [LightDocument.sync, h, ApplyTheme]
    · simp [LightDocument.sync, h, ApplyTheme]
    · intro m
      simp [LightDocument.sync, RemoveTheme, ApplyTheme, LightDocument.active_theme]
      split <;> rfl

/-- C4 witness: concrete syncs, one with the sentinel theme (stored in a
different letter case, still recognized through the lower-casing accessor)
and one with a real theme. -/
theorem sync_spec_witness :
    (LightDocument.active_theme ⟨"None", "T1.dot", []⟩ = NO_OBJ ∧
      LightDocument.sync ⟨"None", "T1.dot", []⟩ ⟨.applied "old", "x", fun _ => none⟩ =
        { RemoveTheme ⟨.applied "old", "x", fun _ => none⟩ with attachedTemplate := "T1.dot" }) ∧
    (LightDocument.active_theme ⟨"Blends", "T2.dot", []⟩ ≠ NO_OBJ ∧
      LightDocument.sync ⟨"Blends", "T2.dot", []⟩ ⟨.cleared, "y", fun _ => none⟩ =
        { ApplyTheme ⟨.cleared, "y", fun _ => none⟩ "Blends" with attachedTemplate := "T2.dot" }) := by
  constructor
  · exact ⟨by decide, (sync_spec ⟨"None", "T1.dot", []⟩ ⟨.applied "old", "x", fun _ => none⟩).1 (by decide)⟩
  · exact ⟨by decide, (sync_spec ⟨"Blends", "T2.dot", []⟩ ⟨.cleared, "y", fun _ => none⟩).2.1 (by decide)⟩

/-- `get_wrapper` raises `ValueError` exactly when no live wrapper's stored
handle compares host-equal to the queried handle. -/
theorem get_wrapper_error_iff {α : Type} (hostEq : Handle → Handle → Bool)
    (rawOf : α → Handle) (l : List α) (raw : Handle) :
    get_wrapper hostEq rawOf l raw = .error .valueError ↔
      ∀ w ∈ l, hostEq (rawOf w) raw = false := by
  induction l with
  | nil => simp [get_wrapper]
  | cons x rest ih =>
      by_cases hx : hostEq (rawOf x) raw = true
      · rw [get_wrapper, if_pos hx]
        constructor
        · intro h; simp at h
        · intro hall
          exact absurd (hall x (List.mem_cons_self x rest)) (by simp [hx])
      · rw [get_wrapper, if_neg hx, ih]
        constructor
        · intro h w hw
          cases hw with
          | head => simpa using hx
          | tail _ hw2 => exact h w hw2
        · intro h w hw
          exact h w (List.mem_cons_of_mem x hw)

/-- A successful `get_wrapper` returns the first wrapper of the linear scan
whose stored handle compares host-equal to the queried handle. -/
theorem get_wrapper_ok_first {α : Type} (hostEq : Handle → Handle → Bool)
    (rawOf : α → Handle) (l : List α) (raw : Handle) (w : α)
    (hok : get_wrapper hostEq rawOf l raw = .ok w) :
    ∃ i : Nat, ∃ hi : i < l.length,
      l.get ⟨i, hi⟩ = w ∧ hostEq (rawOf w) raw = true ∧
        ∀ j : Nat, ∀ hj : j < l.length, j < i →
          hostEq (rawOf (l.get ⟨j, hj⟩)) raw = false := by
  induction l with
  | nil => simp [get_wrapper] at hok
  | cons x rest ih =>
      by_cases hx : hostEq (rawOf x) raw = true
      · rw [get_wrapper, if_pos hx] at hok
        refine ⟨0, by simp, ?_, ?_, ?_⟩
        · simpa using (Except.ok.injEq .. ▸ hok :)
        · have hw : x = w := by simpa using hok
          rw [← hw]; exact hx
        · intro j hj hj0; omega
      · rw [get_wrapper, if_neg hx] at hok
        obtain ⟨i, hi, hget, hmatch, hfirst⟩ := ih hok
        refine ⟨i + 1, by simpa using Nat.succ_lt_succ hi, by simpa using hget, hmatch, ?_⟩
        intro j hj hji
        cases j with
        | zero => simpa using hx
        | succ j' =>
            have hj' : j' < rest.length := by simpa using hj
            have := hfirst j' hj' (by omega)
            simpa using this

/-- When the whole scan fails, the scan over a prefix is skipped. -/
theorem get_wrapper_append {α : Type} (hostEq : Handle → Handle → Bool)
    (rawOf : α → Handle) (l1 l2 : List α) (raw : Handle)
    (h : ∀ w ∈ l1, hostEq (rawOf w) raw = false) :
    get_wrapper hostEq rawOf (l1 ++ l2) raw = get_wrapper hostEq rawOf l2 raw := by
  induction l1 with
  | nil => rfl
  | cons x rest ih =>
      have hx : hostEq (rawOf x) raw = false := h x (List.mem_cons_self x rest)
      rw [List.cons_append, get_wrapper, if_neg (by simp [hx])]
      exact ih fun w hw => h w (List.mem_cons_of_mem x hw)

/-- C7 — Handle resolution: `get_wrapper` scans the live wrapper list
linearly under host equality and returns the first match; with no match it
raises `ValueError` (the failure the spec's taxonomy names `NotFoundError`);
and in the two internal find-or-create paths (`add_raw_doc` for documents,
`_load_tmpl` for templates) that failure is caught and answered by
constructing and appending a new wrapper instead of being surfaced. -/
theorem resolve_spec (hostEq : Handle → Handle → Bool) :
    (∀ (α : Type) (rawOf : α → Handle) (l : List α) (raw : Handle) (w : α),
      get_wrapper hostEq rawOf l raw = .ok w →
        ∃ i : Nat, ∃ hi : i < l.length,
          l.get ⟨i, hi⟩ = w ∧ hostEq (rawOf w) raw = true ∧
            ∀ j : Nat, ∀ hj : j < l.length, j < i →
              hostEq (rawOf (l.get ⟨j, hj⟩)) raw = false) ∧
    (∀ (α : Type) (rawOf : α → Handle) (l : List α) (raw : Handle),
      (∀ w ∈ l, hostEq (rawOf w) raw = false) ↔
        get_wrapper hostEq rawOf l raw = .error .valueError) ∧
    (∀ (langs : List Lang) (props : Handle → RawDoc) (st : WordState) (raw : Handle),
      get_wrapper hostEq DocWrapper.handle st.docs raw = .error .valueError →
        add_raw_doc hostEq langs props st raw = add_new_doc langs props st raw) ∧
    (∀ (tprops : Handle → RawTmpl) (st : WordState) (raw : Handle),
      st.tmpls.isEmpty = false →
        get_wrapper hostEq TmplWrapper.handle st.tmpls raw = .error .valueError →
          load_tmpl hostEq tprops st raw =
            templates_add { st with nextId := st.nextId + 1 }
              { wid := st.nextId, handle := raw, autoText := (tprops raw).autoText }) := by
  refine ⟨fun α rawOf l raw w h => get_wrapper_ok_first hostEq rawOf l raw w h,
    fun α rawOf l raw => (get_wrapper_error_iff hostEq rawOf l raw).symm, ?_, ?_⟩
  · intro langs props st raw herr
    simp [add_raw_doc, herr]
  · intro tprops st raw hne herr
    simp [load_tmpl, hne, herr]

/-- C7 witness: a concrete two-wrapper scan resolving the second wrapper,
a failing scan, and concrete creation paths triggered by the failure. -/
theorem resolve_spec_witness :
    (get_wrapper (fun a b => a == b) DocWrapper.handle
        [⟨0, 7, ⟨"t", "n", []⟩⟩, ⟨1, 9, ⟨"t", "n", []⟩⟩] 9 =
          .ok ⟨1, 9, ⟨"t", "n", []⟩⟩ ∧
      ∃ i : Nat, ∃ hi :
          i < ([⟨0, 7, ⟨"t", "n", []⟩⟩, ⟨1, 9, ⟨"t", "n", []⟩⟩] : List DocWrapper).length,
        ([⟨0, 7, ⟨"t", "n", []⟩⟩, ⟨1, 9, ⟨"t", "n", []⟩⟩] : List DocWrapper).get ⟨i, hi⟩ =
            ⟨1, 9, ⟨"t", "n", []⟩⟩ ∧
          (fun a b => a == b) (DocWrapper.handle ⟨1, 9, ⟨"t", "n", []⟩⟩) 9 = true ∧
            ∀ j : Nat,
              ∀ hj : j < ([⟨0, 7, ⟨"t", "n", []⟩⟩, ⟨1, 9, ⟨"t", "n", []⟩⟩] :
                  List DocWrapper).length,
                j < i →
                  (fun a b => a == b)
                      (DocWrapper.handle (([⟨0, 7, ⟨"t", "n", []⟩⟩,
                        ⟨1, 9, ⟨"t", "n", []⟩⟩] : List DocWrapper).get ⟨j, hj⟩)) 9 = false) ∧
    load_tmpl (fun a b => a == b) (fun _ => ⟨"N.dot", "N", []⟩)
        ⟨[], [⟨0, 100, []⟩], 1⟩ 200 =
      templates_add ⟨[], [⟨0, 100, []⟩], 2⟩ ⟨1, 200, []⟩ := by
  refine ⟨⟨rfl, ?_⟩, ?_⟩
  · exact (resolve_spec (fun a b => a == b)).1 DocWrapper DocWrapper.handle
      [⟨0, 7, ⟨"t", "n", []⟩⟩, ⟨1, 9, ⟨"t", "n", []⟩⟩] 9 ⟨1, 9, ⟨"t", "n", []⟩⟩ rfl
  · have := (resolve_spec (fun a b => a == b)).2.2.2 (fun _ => ⟨"N.dot", "N", []⟩)
      ⟨[], [⟨0, 100, []⟩], 1⟩ 200 (by decide) rfl
    simpa using this

/-- `_load_tmpl` never touches the document wrapper list. -/
theorem load_tmpl_docs (hostEq : Handle → Handle → Bool) (tprops : Handle → RawTmpl)
    (st : WordState) (raw : Handle) :
    (load_tmpl hostEq tprops st raw).docs = st.docs := by
  rw [load_tmpl]
  by_cases hemp : st.tmpls.isEmpty
  · simp [hemp]
  · simp only [hemp, if_false, Bool.false_eq_true]
    cases get_wrapper hostEq TmplWrapper.handle st.tmpls raw <;> simp [templates_add]

/-- C2 — Open is idempotent: when the first `open(p)` actually opened the
file (no wrapper matched the handle the host returned) and the document is
still live at the second call — the host's re-open returns a handle
host-equal to the first wrapper's and different from every older one, and
the document's attached template still resolves in the template set — then
the second `open(p)` returns the object-identical wrapper of the first
call, leaves the whole local state (wrapper lists and the construction
counter, hence snapshots) unchanged, and the collection length after both
calls exceeds the length before the first call by exactly 1. -/
theorem open_idempotent (hostEq : Handle → Handle → Bool) (langs : List Lang)
    (props : Handle → RawDoc) (tprops : Handle → RawTmpl)
    (hostOpen1 hostOpen2 : String → Handle) (st0 st1 : WordState)
    (p : String) (w1 : DocWrapper)
    (hfirst : docs_open hostEq langs props tprops hostOpen1 st0 p = (w1, st1))
    (hnew : get_wrapper hostEq DocWrapper.handle st0.docs (hostOpen1 p) =
      .error .valueError)
    (hre : hostEq w1.handle (hostOpen2 p) = true)
    (hstale : ∀ w ∈ st0.docs, hostEq w.handle (hostOpen2 p) = false)
    (htmpl : ∃ t, get_wrapper hostEq TmplWrapper.handle st1.tmpls
      ((props (hostOpen2 p)).tmplHandle) = .ok t) :
    docs_open hostEq langs props tprops hostOpen2 st1 p = (w1, st1) ∧
      st1.docs.length = st0.docs.length + 1 := by
  have hstA : (load_tmpl hostEq tprops st0 ((props (hostOpen1 p)).tmplHandle)).docs
      = st0.docs := load_tmpl_docs ..
  have herr1 : get_wrapper hostEq DocWrapper.handle
      (load_tmpl hostEq tprops st0 ((props (hostOpen1 p)).tmplHandle)).docs
      (hostOpen1 p) = .error .valueError := by rw [hstA]; exact hnew
  rw [docs_open, add_raw_doc] at hfirst
  simp only [herr1, add_new_doc, Prod.mk.injEq] at hfirst
  obtain ⟨hw1, hst1⟩ := hfirst
  have hdocs1 : st1.docs = st0.docs ++ [w1] := by
    rw [← hst1, ← hw1]
    simp [hstA]
  have hlen : st1.docs.length = st0.docs.length + 1 := by simp [hdocs1]
  refine ⟨?_, hlen⟩
  obtain ⟨t, ht⟩ := htmpl
  have hload2 : load_tmpl hostEq tprops st1 ((props (hostOpen2 p)).tmplHandle) = st1 := by
    rw [load_tmpl]
    by_cases hemp : st1.tmpls.isEmpty
    · simp [hemp]
    · simp [hemp, ht]
  rw [docs_open, hload2, add_raw_doc]
  have hfind : get_wrapper hostEq DocWrapper.handle st1.docs (hostOpen2 p) = .ok w1 := by
    rw [hdocs1, get_wrapper_append hostEq DocWrapper.handle st0.docs [w1] _ hstale,
      get_wrapper, if_pos hre]
  rw [hfind]

/-- C2 witness: a concrete first open that adds a wrapper, then a second
open of the same path that returns the identical wrapper and changes
nothing. -/
theorem open_idempotent_witness :
    docs_open (fun a b => a == b) []
        (fun _ => ⟨"Theme", "N.dot", 100, "d.doc", fun _ => none⟩)
        (fun _ => ⟨"N.dot", "N", []⟩) (fun _ => 1)
        ⟨[⟨1, 1, ⟨"Theme", "N.dot", capture_styles (fun _ => none) []⟩⟩],
          [⟨0, 100, []⟩], 2⟩ "d.doc" =
      (⟨1, 1, ⟨"Theme", "N.dot", capture_styles (fun _ => none) []⟩⟩,
        ⟨[⟨1, 1, ⟨"Theme", "N.dot", capture_styles (fun _ => none) []⟩⟩],
          [⟨0, 100, []⟩], 2⟩) ∧
      ([⟨1, 1, (⟨"Theme", "N.dot", capture_styles (fun _ => none) []⟩ :
        LightDocument)⟩] : List DocWrapper).length = ([] : List DocWrapper).length + 1 := by
  exact open_idempotent (fun a b => a == b) []
    (fun _ => ⟨"Theme", "N.dot", 100, "d.doc", fun _ => none⟩)
    (fun _ => ⟨"N.dot", "N", []⟩) (fun _ => 1) (fun _ => 1)
    ⟨[], [⟨0, 100, []⟩], 1⟩
    ⟨[⟨1, 1, ⟨"Theme", "N.dot", capture_styles (fun _ => none) []⟩⟩], [⟨0, 100, []⟩], 2⟩
    "d.doc" ⟨1, 1, ⟨"Theme", "N.dot", capture_styles (fun _ => none) []⟩⟩
    rfl rfl (by decide) (by simp) ⟨⟨0, 100, []⟩, rfl⟩

/-- C6 — Close atomicity: when the external `Close` raises, `close(doc)`
propagates the failure and leaves all local state untouched (the document
stays in the collection, no sweep runs); only when the external close
succeeds does the local removal happen, followed by the template sweep on
the removed state. -/
theorem close_atomic (hostEq : Handle → Handle → Bool) (live : List Handle)
    (closeRes : Except PyErr Unit) (st : WordState) (d : DocWrapper) :
    (∀ e, closeRes = .error e →
      document_close hostEq live closeRes st d = (st, some e)) ∧
    (closeRes = .ok () → (st.docs.any fun w => w.wid == d.wid) = true →
      document_close hostEq live closeRes st d =
        (templates_cleanup hostEq live
          { st with docs := list_remove (fun w => w.wid == d.wid) st.docs }, none)) := by
  constructor
  · intro e he
    subst he
    rfl
  · intro hok hmem
    subst hok
    have hrem : documents_remove hostEq live st d =
        .ok (templates_cleanup hostEq live
          { st with docs := list_remove (fun w => w.wid == d.wid) st.docs }) := by
      rw [documents_remove, if_pos hmem]
    simp [document_close, hrem]

/-- C6 witness: a failing external close leaves the one-document state
intact; a succeeding one removes the document and sweeps the now-orphaned
template away. -/
theorem close_atomic_witness :
    document_close (fun a b => a == b) [100] (.error .comError)
        ⟨[⟨1, 5, ⟨"t", "x.dot", []⟩⟩], [⟨0, 100, []⟩, ⟨2, 200, []⟩], 3⟩
        ⟨1, 5, ⟨"t", "x.dot", []⟩⟩ =
      (⟨[⟨1, 5, ⟨"t", "x.dot", []⟩⟩], [⟨0, 100, []⟩, ⟨2, 200, []⟩], 3⟩, some .comError) ∧
    document_close (fun a b => a == b) [100] (.ok ())
        ⟨[⟨1, 5, ⟨"t", "x.dot", []⟩⟩], [⟨0, 100, []⟩, ⟨2, 200, []⟩], 3⟩
        ⟨1, 5, ⟨"t", "x.dot", []⟩⟩ =
      (templates_cleanup (fun a b => a == b) [100]
        ⟨list_remove (fun w => w.wid == (1 : Nat))
          [⟨1, 5, ⟨"t", "x.dot", []⟩⟩], [⟨0, 100, []⟩, ⟨2, 200, []⟩], 3⟩, none) := by
  constructor
  · exact (close_atomic (fun a b => a == b) [100] (.error .comError)
      ⟨[⟨1, 5, ⟨"t", "x.dot", []⟩⟩], [⟨0, 100, []⟩, ⟨2, 200, []⟩], 3⟩
      ⟨1, 5, ⟨"t", "x.dot", []⟩⟩).1 .comError rfl
  · exact (close_atomic (fun a b => a == b) [100] (.ok ())
      ⟨[⟨1, 5, ⟨"t", "x.dot", []⟩⟩], [⟨0, 100, []⟩, ⟨2, 200, []⟩], 3⟩
      ⟨1, 5, ⟨"t", "x.dot", []⟩⟩).2 rfl (by decide)

/-- `list_remove` yields a sublist of its input. -/
theorem list_remove_sublist {α : Type} (p : α → Bool) (l : List α) :
    List.Sublist (list_remove p l) l := by
  induction l with
  | nil => simp [list_remove]
  | cons x rest ih =>
      rw [list_remove]
      by_cases hx : p x = true
      · simpa [hx] using List.sublist_cons x rest
      · simp only [hx, if_false, Bool.false_eq_true]
        exact List.Sublist.cons₂ x ih

/-- Under pairwise-distinct object identities, removing the element found
at a cursor position is exactly erasure at that index. -/
theorem list_remove_wid_eq_eraseIdx (l : List TmplWrapper) (i : Nat) (hi : i < l.length)
    (hd : l.Pairwise fun a b => a.wid ≠ b.wid) :
    list_remove (fun w => w.wid == (l.get ⟨i, hi⟩).wid) l = l.eraseIdx i := by
  induction l generalizing i with
  | nil => simp at hi
  | cons x rest ih =>
      cases i with
      | zero => simp [list_remove]
      | succ i' =>
          have hi' : i' < rest.length := by simpa using hi
          have hget : (x :: rest).get ⟨i' + 1, hi⟩ = rest.get ⟨i', hi'⟩ := rfl
          have hne : x.wid ≠ (rest.get ⟨i', hi'⟩).wid :=
            (List.pairwise_cons.mp hd).1 _ (rest.get_mem i' hi')
          rw [hget, list_remove, if_neg (by simpa using hne)]
          rw [List.eraseIdx_cons_succ]
          exact congrArg (x :: ·) (ih i' hi' (List.pairwise_cons.mp hd).2)

/-- The sweep loop, run from any cursor over a list of wrappers with
pairwise-distinct identities, keeps the already-visited prefix and filters
the rest by host liveness. -/
theorem cleanup_loop_eq_aux (hostEq : Handle → Handle → Bool) (live : List Handle) :
    ∀ (fuel : Nat) (l : List TmplWrapper) (count : Nat), l.length - count ≤ fuel →
      (l.Pairwise fun a b => a.wid ≠ b.wid) →
      cleanup_loop hostEq live l count =
        l.take count ++ (l.drop count).filter (tmpl_is_live hostEq live) := by
  intro fuel
  induction fuel with
  | zero =>
      intro l count hle hd
      have hcount : l.length ≤ count := by omega
      rw [cleanup_loop, dif_neg (by omega)]
      rw [List.take_of_length_le hcount, List.drop_eq_nil_of_le hcount]
      simp
  | succ n ih =>
      intro l count hle hd
      by_cases hlt : count < l.length
      · rw [cleanup_loop, dif_pos hlt]
        by_cases hliv : tmpl_is_live hostEq live (l.get ⟨count, hlt⟩) = true
        · rw [if_pos hliv]
          rw [ih l (count + 1) (by omega) hd]
          have htake : l.take (count + 1) = l.take count ++ [l.get ⟨count, hlt⟩] := by
            simpa using (List.take_concat_get l count hlt).symm
          have hdrop : l.drop count = l.get ⟨count, hlt⟩ :: l.drop (count + 1) :=
            (List.get_cons_drop l ⟨count, hlt⟩).symm
          rw [htake, hdrop, List.filter_cons, if_pos hliv, List.append_assoc]
          rfl
        · rw [if_neg hliv]
          rw [list_remove_wid_eq_eraseIdx l count hlt hd]
          have hlen : (l.eraseIdx count).length = l.length - 1 := by
            rw [List.eraseIdx_eq_take_drop_succ]
            simp [List.length_take]
            omega
          have hd' : (l.eraseIdx count).Pairwise fun a b => a.wid ≠ b.wid :=
            hd.sublist (List.eraseIdx_sublist l count)
          rw [ih (l.eraseIdx count) count (by omega) hd']
          rw [List.eraseIdx_eq_take_drop_succ]
          have hlt' : (l.take count).length = count := by
            simp [List.length_take]; omega
          have h1 : (l.take count ++ l.drop (count + 1)).take count = l.take count :=
            List.take_left' hlt'
          have h2 : (l.take count ++ l.drop (count + 1)).drop count = l.drop (count + 1) :=
            List.drop_left' hlt'
          rw [h1, h2]
          have hdrop : l.drop count = l.get ⟨count, hlt⟩ :: l.drop (count + 1) :=
            (List.get_cons_drop l ⟨count, hlt⟩).symm
          rw [hdrop, List.filter_cons, if_neg hliv]
      · rw [cleanup_loop, dif_neg hlt]
        have hcount : l.length ≤ count := by omega
        rw [List.take_of_length_le hcount, List.drop_eq_nil_of_le hcount]
        simp

/-- The sweep loop is a sublist of its input (no distinctness needed). -/
theorem cleanup_loop_sublist (hostEq : Handle → Handle → Bool) (live : List Handle) :
    ∀ (fuel : Nat) (l : List TmplWrapper) (count : Nat), l.length - count ≤ fuel →
      List.Sublist (cleanup_loop hostEq live l count) l := by
  intro fuel
  induction fuel with
  | zero =>
      intro l count hle
      rw [cleanup_loop, dif_neg (by omega)]
  | succ n ih =>
      intro l count hle
      by_cases hlt : count < l.length
      · rw [cleanup_loop, dif_pos hlt]
        by_cases hliv : tmpl_is_live hostEq live (l.get ⟨count, hlt⟩) = true
        · rw [if_pos hliv]
          exact ih l (count + 1) (by omega)
        · rw [if_neg hliv]
          have hlen := list_remove_length (fun w => w.wid == (l.get ⟨count, hlt⟩).wid) l
            (l.get ⟨count, hlt⟩) (l.get_mem _ _) (by simp)
          exact (ih _ count (by omega)).trans (list_remove_sublist _ l)
      · rw [cleanup_loop, dif_neg hlt]

/-- C3 — Sweep correctness: `cleanup()` removes from the template
collection exactly those tracked templates whose handle is no longer
host-equal to any handle in the host's live template set (the host's own
collection, derived from the attached templates of its open documents plus
the pinned normal template), keeps all survivors in order, and under the
host invariant that the normal template's handle is always live, the
normal-template wrapper is present both before and after the sweep.  The
document list is untouched. -/
theorem sweep_spec (hostEq : Handle → Handle → Bool) (live : List Handle)
    (st : WordState) (normal : TmplWrapper)
    (hd : st.tmpls.Pairwise fun a b => a.wid ≠ b.wid)
    (hmem : normal ∈ st.tmpls)
    (hlive : tmpl_is_live hostEq live normal = true) :
    (templates_cleanup hostEq live st).tmpls =
      st.tmpls.filter (tmpl_is_live hostEq live) ∧
    (∀ w, w ∈ (templates_cleanup hostEq live st).tmpls ↔
      w ∈ st.tmpls ∧ tmpl_is_live hostEq live w = true) ∧
    normal ∈ st.tmpls ∧
    normal ∈ (templates_cleanup hostEq live st).tmpls ∧
    (templates_cleanup hostEq live st).docs = st.docs := by
  have hfilter : (templates_cleanup hostEq live st).tmpls =
      st.tmpls.filter (tmpl_is_live hostEq live) := by
    show cleanup_loop hostEq live st.tmpls 0 = _
    rw [cleanup_loop_eq_aux hostEq live st.tmpls.length st.tmpls 0 (by omega) hd]
    simp
  refine ⟨hfilter, ?_, hmem, ?_, rfl⟩
  · intro w
    rw [hfilter, List.mem_filter]
  · rw [hfilter, List.mem_filter]
    exact ⟨hmem, hlive⟩

/-- C3 witness: a concrete sweep over three templates (normal pinned and
live, one still referenced, one orphaned) removes exactly the orphan and
keeps the normal template. -/
theorem sweep_spec_witness :
    (templates_cleanup (fun a b => a == b) [100, 300]
        ⟨[], [⟨0, 100, []⟩, ⟨1, 200, []⟩, ⟨2, 300, []⟩], 3⟩).tmpls =
      ([⟨0, 100, []⟩, ⟨1, 200, []⟩, ⟨2, 300, []⟩] : List TmplWrapper).filter
        (tmpl_is_live (fun a b => a == b) [100, 300]) ∧
    (⟨0, 100, []⟩ : TmplWrapper) ∈
      (templates_cleanup (fun a b => a == b) [100, 300]
        ⟨[], [⟨0, 100, []⟩, ⟨1, 200, []⟩, ⟨2, 300, []⟩], 3⟩).tmpls := by
  have h := sweep_spec (fun a b => a == b) [100, 300]
    ⟨[], [⟨0, 100, []⟩, ⟨1, 200, []⟩, ⟨2, 300, []⟩], 3⟩ ⟨0, 100, []⟩
    (by decide) (by decide) (by decide)
  exact ⟨h.1, h.2.2.2.1⟩

/-- A failed scan implies no wrapper in the list matches, whatever the
error value. -/
theorem get_wrapper_error_forall {α : Type} (hostEq : Handle → Handle → Bool)
    (rawOf : α → Handle) (l : List α) (raw : Handle) (e : PyErr)
    (h : get_wrapper hostEq rawOf l raw = .error e) :
    ∀ w ∈ l, hostEq (rawOf w) raw = false := by
  induction l with
  | nil => intro w hw; cases hw
  | cons x rest ih =>
      by_cases hx : hostEq (rawOf x) raw = true
      · rw [get_wrapper, if_pos hx] at h
        simp at h
      · rw [get_wrapper, if_neg hx] at h
        intro w hw
        cases hw with
        | head => simpa using hx
        | tail _ hw2 => exact ih h w hw2

/-- Appending a wrapper whose handle matches none of the existing ones
preserves de-duplication. -/
theorem handles_nodup_append {α : Type} (hostEq : Handle → Handle → Bool)
    (rawOf : α → Handle) (l : List α) (new : α)
    (hl : handles_nodup hostEq rawOf l)
    (hnew : ∀ w ∈ l, hostEq (rawOf w) (rawOf new) = false) :
    handles_nodup hostEq rawOf (l ++ [new]) := by
  rw [handles_nodup, List.pairwise_append]
  refine ⟨hl, List.pairwise_singleton .., fun a ha b hb => ?_⟩
  rw [List.mem_singleton] at hb
  subst hb
  exact hnew a ha

/-- `add_raw_doc` preserves document de-duplication (it only appends after
the resolve failed) and never touches the template list. -/
theorem add_raw_doc_nodup (hostEq : Handle → Handle → Bool) (langs : List Lang)
    (props : Handle → RawDoc) (st : WordState) (raw : Handle)
    (h : docs_nodup hostEq st) :
    docs_nodup hostEq (add_raw_doc hostEq langs props st raw).2 ∧
      (add_raw_doc hostEq langs props st raw).2.tmpls = st.tmpls := by
  cases hgw : get_wrapper hostEq DocWrapper.handle st.docs raw with
  | ok w =>
      rw [add_raw_doc, hgw]
      exact ⟨h, rfl⟩
  | error e =>
      rw [add_raw_doc, hgw]
      have hall := get_wrapper_error_forall hostEq DocWrapper.handle st.docs raw e hgw
      exact ⟨handles_nodup_append hostEq DocWrapper.handle st.docs _ h hall, rfl⟩

/-- `_load_tmpl` preserves template de-duplication. -/
theorem load_tmpl_nodup (hostEq : Handle → Handle → Bool) (tprops : Handle → RawTmpl)
    (st : WordState) (raw : Handle) (h : tmpls_nodup hostEq st) :
    tmpls_nodup hostEq (load_tmpl hostEq tprops st raw) := by
  rw [load_tmpl]
  by_cases hemp : st.tmpls.isEmpty = true
  · rw [if_pos hemp]; exact h
  · rw [if_neg hemp]
    cases hgw : get_wrapper hostEq TmplWrapper.handle st.tmpls raw with
    | ok w => exact h
    | error e =>
        have hall := get_wrapper_error_forall hostEq TmplWrapper.handle st.tmpls raw e hgw
        exact handles_nodup_append hostEq TmplWrapper.handle st.tmpls _ h hall

/-- The sweep preserves template de-duplication (its output is a sublist). -/
theorem templates_cleanup_nodup (hostEq : Handle → Handle → Bool) (live : List Handle)
    (st : WordState) (h : tmpls_nodup hostEq st) :
    tmpls_nodup hostEq (templates_cleanup hostEq live st) ∧
      (templates_cleanup hostEq live st).docs = st.docs :=
  ⟨h.sublist (cleanup_loop_sublist hostEq live st.tmpls.length st.tmpls 0 (by omega)), rfl⟩

/-- `_Documents.remove` preserves both de-duplication invariants. -/
theorem documents_remove_nodup (hostEq : Handle → Handle → Bool) (live : List Handle)
    (st : WordState) (d : DocWrapper) (st' : WordState)
    (hok : documents_remove hostEq live st d = .ok st')
    (hd : docs_nodup hostEq st) (ht : tmpls_nodup hostEq st) :
    docs_nodup hostEq st' ∧ tmpls_nodup hostEq st' := by
  rw [documents_remove] at hok
  by_cases hmem : (st.docs.any fun w => w.wid == d.wid) = true
  · rw [if_pos hmem] at hok
    injection hok with hx
    subst hx
    constructor
    · exact (hd.sublist (list_remove_sublist _ st.docs) :)
    · exact (templates_cleanup_nodup hostEq live
        { st with docs := list_remove (fun w => w.wid == d.wid) st.docs } ht).1
  · rw [if_neg hmem] at hok
    simp at hok

/-- `_Document.close` preserves both de-duplication invariants whatever
the external close's outcome. -/
theorem document_close_nodup (hostEq : Handle → Handle → Bool) (live : List Handle)
    (closeRes : Except PyErr Unit) (st : WordState) (d : DocWrapper)
    (hd : docs_nodup hostEq st) (ht : tmpls_nodup hostEq st) :
    docs_nodup hostEq (document_close hostEq live closeRes st d).1 ∧
      tmpls_nodup hostEq (document_close hostEq live closeRes st d).1 := by
  cases closeRes with
  | error e => exact ⟨hd, ht⟩
  | ok u =>
      cases u
      cases hrem : documents_remove hostEq live st d with
      | ok st' =>
          have h := documents_remove_nodup hostEq live st d st' hrem hd ht
          simpa [document_close, hrem] using h
      | error e =>
          simpa [document_close, hrem] using And.intro hd ht

/-- C1 — Identity de-duplication invariant: under host equality, no two
wrappers of the same collection wrap equal handles, and every mutating
operation preserves the invariant on both collections: `add_raw_doc`
(find-or-create), `open`, `add` (under the host guarantee that `Add`
returns a handle distinct from every live one), `_load_tmpl`
(load-if-absent), the template sweep, `remove`, per-document `close` and
collection-wide `close`. -/
theorem dedup_invariant (hostEq : Handle → Handle → Bool) (langs : List Lang)
    (props : Handle → RawDoc) (tprops : Handle → RawTmpl) :
    (∀ st raw, docs_nodup hostEq st →
      docs_nodup hostEq (add_raw_doc hostEq langs props st raw).2 ∧
        (add_raw_doc hostEq langs props st raw).2.tmpls = st.tmpls) ∧
    (∀ hostOpen st p, docs_nodup hostEq st → tmpls_nodup hostEq st →
      docs_nodup hostEq (docs_open hostEq langs props tprops hostOpen st p).2 ∧
        tmpls_nodup hostEq (docs_open hostEq langs props tprops hostOpen st p).2) ∧
    (∀ newDoc st, docs_nodup hostEq st → tmpls_nodup hostEq st →
      (∀ w ∈ st.docs, hostEq w.handle newDoc = false) →
      docs_nodup hostEq (docs_add hostEq langs props tprops newDoc st).2 ∧
        tmpls_nodup hostEq (docs_add hostEq langs props tprops newDoc st).2) ∧
    (∀ st raw, tmpls_nodup hostEq st →
      tmpls_nodup hostEq (load_tmpl hostEq tprops st raw) ∧
        (load_tmpl hostEq tprops st raw).docs = st.docs) ∧
    (∀ live st, tmpls_nodup hostEq st →
      tmpls_nodup hostEq (templates_cleanup hostEq live st) ∧
        (templates_cleanup hostEq live st).docs = st.docs) ∧
    (∀ live st d st', documents_remove hostEq live st d = .ok st' →
      docs_nodup hostEq st → tmpls_nodup hostEq st →
      docs_nodup hostEq st' ∧ tmpls_nodup hostEq st') ∧
    (∀ live closeRes st d, docs_nodup hostEq st → tmpls_nodup hostEq st →
      docs_nodup hostEq (document_close hostEq live closeRes st d).1 ∧
        tmpls_nodup hostEq (document_close hostEq live closeRes st d).1) ∧
    (∀ live closeRes st, docs_nodup hostEq st → tmpls_nodup hostEq st →
      docs_nodup hostEq (documents_close_all hostEq live closeRes st).1 ∧
        tmpls_nodup hostEq (documents_close_all hostEq live closeRes st).1) := by
  refine ⟨fun st raw h => add_raw_doc_nodup hostEq langs props st raw h,
    ?_, ?_, fun st raw h => ⟨load_tmpl_nodup hostEq tprops st raw h, load_tmpl_docs ..⟩,
    fun live st h => templates_cleanup_nodup hostEq live st h,
    fun live st d st' hok hd ht => documents_remove_nodup hostEq live st d st' hok hd ht,
    fun live closeRes st d hd ht => document_close_nodup hostEq live closeRes st d hd ht,
    ?_⟩
  · intro hostOpen st p hd ht
    rw [docs_open]
    have hdocs1 : docs_nodup hostEq
        (load_tmpl hostEq tprops st (props (hostOpen p)).tmplHandle) := by
      show handles_nodup hostEq DocWrapper.handle _
      rw [load_tmpl_docs]
      exact hd
    have ht1 : tmpls_nodup hostEq
        (load_tmpl hostEq tprops st (props (hostOpen p)).tmplHandle) :=
      load_tmpl_nodup hostEq tprops st _ ht
    have h2 := add_raw_doc_nodup hostEq langs props
      (load_tmpl hostEq tprops st (props (hostOpen p)).tmplHandle) (hostOpen p) hdocs1
    refine ⟨h2.1, ?_⟩
    show handles_nodup hostEq TmplWrapper.handle _
    rw [h2.2]
    exact ht1
  · intro newDoc st hd ht hfresh
    rw [docs_add]
    have hdocs1 : (load_tmpl hostEq tprops st (props newDoc).tmplHandle).docs = st.docs :=
      load_tmpl_docs ..
    have ht1 : tmpls_nodup hostEq (load_tmpl hostEq tprops st (props newDoc).tmplHandle) :=
      load_tmpl_nodup hostEq tprops st _ ht
    constructor
    · show handles_nodup hostEq DocWrapper.handle _
      show handles_nodup hostEq DocWrapper.handle
        ((load_tmpl hostEq tprops st (props newDoc).tmplHandle).docs ++ _)
      rw [hdocs1]
      exact handles_nodup_append hostEq DocWrapper.handle st.docs _ hd hfresh
    · exact ht1
  · intro live closeRes st hd ht
    cases closeRes with
    | error e => exact ⟨hd, ht⟩
    | ok u =>
        cases u
        refine ⟨List.Pairwise.nil, ?_⟩
        exact (templates_cleanup_nodup hostEq live { st with docs := [] } ht).1

/-- C1 witness: concrete invariant preservation: re-adding an already-open
raw document, adding a fresh document, opening, loading a template,
sweeping and closing all keep the collections duplicate-free. -/
theorem dedup_invariant_witness :
    docs_nodup (fun a b => a == b)
        (add_raw_doc (fun a b => a == b) []
          (fun _ => ⟨"t", "n", 100, "d", fun _ => none⟩)
          ⟨[⟨0, 1, ⟨"t", "n", []⟩⟩], [⟨1, 100, []⟩], 2⟩ 1).2 ∧
    docs_nodup (fun a b => a == b)
        (docs_open (fun a b => a == b) []
          (fun _ => ⟨"t", "n", 100, "d", fun _ => none⟩)
          (fun _ => ⟨"f", "fn", []⟩) (fun _ => 1)
          ⟨[⟨0, 1, ⟨"t", "n", []⟩⟩], [⟨1, 100, []⟩], 2⟩ "d").2 ∧
    docs_nodup (fun a b => a == b)
        (docs_add (fun a b => a == b) []
          (fun _ => ⟨"t", "n", 100, "d", fun _ => none⟩)
          (fun _ => ⟨"f", "fn", []⟩) 5
          ⟨[⟨0, 1, ⟨"t", "n", []⟩⟩], [⟨1, 100, []⟩], 2⟩).2 ∧
    tmpls_nodup (fun a b => a == b)
        (load_tmpl (fun a b => a == b) (fun _ => ⟨"f", "fn", []⟩)
          ⟨[⟨0, 1, ⟨"t", "n", []⟩⟩], [⟨1, 100, []⟩], 2⟩ 200) ∧
    tmpls_nodup (fun a b => a == b)
        (templates_cleanup (fun a b => a == b) [100]
          ⟨[⟨0, 1, ⟨"t", "n", []⟩⟩], [⟨1, 100, []⟩, ⟨2, 200, []⟩], 3⟩) ∧
    tmpls_nodup (fun a b => a == b)
        (document_close (fun a b => a == b) [100] (.ok ())
          ⟨[⟨0, 1, ⟨"t", "n", []⟩⟩], [⟨1, 100, []⟩], 2⟩ ⟨0, 1, ⟨"t", "n", []⟩⟩).1 ∧
    docs_nodup (fun a b => a == b)
        (documents_close_all (fun a b => a == b) [100] (.ok ())
          ⟨[⟨0, 1, ⟨"t", "n", []⟩⟩], [⟨1, 100, []⟩], 2⟩).1 := by
  have h := dedup_invariant (fun a b => a == b) []
    (fun _ => ⟨"t", "n", 100, "d", fun _ => none⟩) (fun _ => ⟨"f", "fn", []⟩)
  have hdn : docs_nodup (fun a b : Handle => a == b)
      ⟨[⟨0, 1, ⟨"t", "n", []⟩⟩], [⟨1, 100, []⟩], 2⟩ := by
    simp [docs_nodup, handles_nodup]
  have htn : tmpls_nodup (fun a b : Handle => a == b)
      ⟨[⟨0, 1, ⟨"t", "n", []⟩⟩], [⟨1, 100, []⟩], 2⟩ := by
    simp [tmpls_nodup, handles_nodup]
  have htn2 : tmpls_nodup (fun a b : Handle => a == b)
      ⟨[⟨0, 1, ⟨"t", "n", []⟩⟩], [⟨1, 100, []⟩, ⟨2, 200, []⟩], 3⟩ := by
    simp [tmpls_nodup, handles_nodup]
  refine ⟨(h.1 _ 1 hdn).1, (h.2.1 (fun _ => 1) _ "d" hdn htn).1,
    (h.2.2.1 5 _ hdn htn (by decide)).1, (h.2.2.2.1 _ 200 htn).1,
    (h.2.2.2.2.1 [100] _ htn2).1,
    (h.2.2.2.2.2.2.1 [100] (.ok ()) _ ⟨0, 1, ⟨"t", "n", []⟩⟩ hdn htn).2,
    (h.2.2.2.2.2.2.2 [100] (.ok ()) _ hdn htn).1⟩

/-- C8 counterexample: on a collection whose host rejects the unknown key
"absent" (as the COM host does), string lookup surfaces the host's
`com_error`, not a `KeyError`; the claim that an absent string key fails
with `KeyError` is false on this input. -/
theorem collection_lookup_keyerror_counterexample :
    getitem (fun a b => a == b) DocWrapper.handle (fun _ => .error .comError)
        [⟨0, 5, ⟨"t", "n", []⟩⟩] (.str "absent") = .error .comError ∧
      PyErr.comError ≠ PyErr.keyError := by
  exact ⟨rfl, by decide⟩

/-- C8 (amended) — Collection lookup failures: out-of-range integer
indexing fails with `IndexError`; an absent string key surfaces the host
lookup's own failure unchanged (a COM error — not `KeyError`), and a key
the host resolves to a handle no live wrapper matches fails with
`ValueError`; failures are surfaced, never retried; in-range integer and
nonzero-step slice indexing return the element or view without error. -/
theorem collection_lookup_spec (hostEq : Handle → Handle → Bool) :
    (∀ (α : Type) (rawOf : α → Handle) (hostKeyLookup : String → Except PyErr Handle)
        (l : List α) (i : Int),
      ((if i < 0 then i + l.length else i) < 0 ∨
          (l.length : Int) ≤ (if i < 0 then i + l.length else i)) →
        getitem hostEq rawOf hostKeyLookup l (.int i) = .error .indexError) ∧
    (∀ (α : Type) (rawOf : α → Handle) (hostKeyLookup : String → Except PyErr Handle)
        (l : List α) (i : Int) (w : α),
      0 ≤ (if i < 0 then i + l.length else i) →
        l.get? (if i < 0 then i + l.length else i).toNat = some w →
          getitem hostEq rawOf hostKeyLookup l (.int i) = .ok (.elem w)) ∧
    (∀ (α : Type) (rawOf : α → Handle) (hostKeyLookup : String → Except PyErr Handle)
        (l : List α) (a b : Option Int) (c : Option Int),
      c.getD 1 ≠ 0 →
        ∃ v, getitem hostEq rawOf hostKeyLookup l (.slice a b c) = .ok (.view v)) ∧
    (∀ (α : Type) (rawOf : α → Handle) (hostKeyLookup : String → Except PyErr Handle)
        (l : List α) (s : String) (e : PyErr),
      hostKeyLookup s = .error e →
        getitem hostEq rawOf hostKeyLookup l (.str s) = .error e) ∧
    (∀ (α : Type) (rawOf : α → Handle) (hostKeyLookup : String → Except PyErr Handle)
        (l : List α) (s : String) (hnd : Handle),
      hostKeyLookup s = .ok hnd →
        (∀ w ∈ l, hostEq (rawOf w) hnd = false) →
          getitem hostEq rawOf hostKeyLookup l (.str s) = .error .valueError) := by
  refine ⟨?_, ?_, ?_, ?_, ?_⟩
  · intro α rawOf hostKeyLookup l i hout
    rw [getitem, py_int_index]
    cases hout with
    | inl hneg => rw [if_pos hneg]; rfl
    | inr hge =>
        by_cases hneg : (if i < 0 then i + (l.length : Int) else i) < 0
        · rw [if_pos hneg]; rfl
        · rw [if_neg hneg]
          have hnone : l.get? (if i < 0 then i + (l.length : Int) else i).toNat = none := by
            rw [List.get?_eq_none]
            omega
          rw [hnone]
          rfl
  · intro α rawOf hostKeyLookup l i w hpos hsome
    rw [getitem, py_int_index]
    rw [if_neg (by omega), hsome]
    rfl
  · intro α rawOf hostKeyLookup l a b c hc
    rw [getitem, py_slice_elems]
    rw [if_neg (by simpa using hc)]
    exact ⟨_, rfl⟩
  · intro α rawOf hostKeyLookup l s e he
    rw [getitem, he]
  · intro α rawOf hostKeyLookup l s hnd hok hmiss
    rw [getitem, hok]
    show Except.map GetResult.elem (get_wrapper hostEq rawOf l hnd) = _
    rw [(get_wrapper_error_iff hostEq rawOf l hnd).mpr hmiss]
    rfl

/-- C8 witness: concrete lookups on a one-document collection: positive and
negative out-of-range indices fail with `IndexError`, a negative in-range
index and a slice succeed, the absent key surfaces the host failure, and a
host-resolved but unwrapped handle fails with `ValueError`. -/
theorem collection_lookup_spec_witness :
    getitem (fun a b => a == b) DocWrapper.handle (fun _ => .error .comError)
        [⟨0, 5, ⟨"t", "n", []⟩⟩] (.int 1) = .error .indexError ∧
    getitem (fun a b => a == b) DocWrapper.handle (fun _ => .error .comError)
        [⟨0, 5, ⟨"t", "n", []⟩⟩] (.int (-2)) = .error .indexError ∧
    getitem (fun a b => a == b) DocWrapper.handle (fun _ => .error .comError)
        [⟨0, 5, ⟨"t", "n", []⟩⟩] (.int (-1)) = .ok (.elem ⟨0, 5, ⟨"t", "n", []⟩⟩) ∧
    (∃ v, getitem (fun a b => a == b) DocWrapper.handle (fun _ => .error .comError)
        [⟨0, 5, ⟨"t", "n", []⟩⟩] (.slice none none (some 2)) = .ok (.view v)) ∧
    getitem (fun a b => a == b) DocWrapper.handle (fun _ => .error .comError)
        [⟨0, 5, ⟨"t", "n", []⟩⟩] (.str "absent") = .error .comError ∧
    getitem (fun a b => a == b) DocWrapper.handle (fun _ => .ok 9)
        [⟨0, 5, ⟨"t", "n", []⟩⟩] (.str "other") = .error .valueError := by
  have h := collection_lookup_spec (fun a b => a == b)
  refine ⟨h.1 DocWrapper DocWrapper.handle (fun _ => .error .comError)
      [⟨0, 5, ⟨"t", "n", []⟩⟩] 1 (by right; decide), ?_, ?_, ?_, ?_, ?_⟩
  · exact h.1 DocWrapper DocWrapper.handle (fun _ => .error .comError)
      [⟨0, 5, ⟨"t", "n", []⟩⟩] (-2) (by left; decide)
  · exact h.2.1 DocWrapper DocWrapper.handle (fun _ => .error .comError)
      [⟨0, 5, ⟨"t", "n", []⟩⟩] (-1) ⟨0, 5, ⟨"t", "n", []⟩⟩ (by decide) rfl
  · exact h.2.2.1 DocWrapper DocWrapper.handle (fun _ => .error .comError)
      [⟨0, 5, ⟨"t", "n", []⟩⟩] none none (some 2) (by decide)
  · exact h.2.2.2.1 DocWrapper DocWrapper.handle (fun _ => .error .comError)
      [⟨0, 5, ⟨"t", "n", []⟩⟩] "absent" .comError rfl
  · exact h.2.2.2.2 DocWrapper DocWrapper.handle (fun _ => .ok 9)
      [⟨0, 5, ⟨"t", "n", []⟩⟩] "other" 9 rfl (by decide)

/-- A pair in an updated dict was present before or is (the whole of) the
inserted pair. -/
theorem mem_dict_insert (m : List (String × String)) (kv p : String × String)
    (h : p ∈ dict_insert m kv) : p ∈ m ∨ p = kv := by
  rw [dict_insert] at h
  by_cases hk : (m.any fun q => q.1 == kv.1) = true
  · rw [if_pos hk] at h
    obtain ⟨q, hq, hqe⟩ := List.mem_map.mp h
    by_cases hq1 : (q.1 == kv.1) = true
    · right
      rw [if_pos hq1] at hqe
      have hq1' : q.1 = kv.1 := by simpa using hq1
      rw [← hqe, hq1']
    · left
      rw [if_neg hq1] at hqe
      rw [← hqe]
      exact hq
  · rw [if_neg hk] at h
    rcases List.mem_append.mp h with hin | hin
    · exact Or.inl hin
    · exact Or.inr (List.mem_singleton.mp hin)

/-- A pair surviving a `dict.update` comes from the original dict or from
the update sequence. -/
theorem mem_dict_update (m kvs : List (String × String)) (p : String × String)
    (h : p ∈ dict_update m kvs) : p ∈ m ∨ p ∈ kvs := by
  induction kvs generalizing m with
  | nil => exact Or.inl h
  | cons kv rest ih =>
      have h' : p ∈ dict_update (dict_insert m kv) rest := h
      rcases ih (dict_insert m kv) h' with hin | hin
      · rcases mem_dict_insert m kv p hin with hm | he
        · exact Or.inl hm
        · exact Or.inr (by rw [he]; exact List.mem_cons_self ..)
      · exact Or.inr (List.mem_cons_of_mem kv hin)

/-- Every entry of the captured writing-style dict is a lower-cased
language attribute paired with the lower-cased style of a language whose
host query succeeded. -/
theorem mem_capture_styles (styleOf : Lang → Option String) (langs : List Lang)
    (p : String × String) (h : p ∈ capture_styles styleOf langs) :
    ∃ lg ∈ langs, ∃ stl, styleOf lg = some stl ∧ p.2 = py_lower stl ∧
      (p.1 = py_lower lg.id ∨ p.1 = py_lower lg.name ∨ p.1 = py_lower lg.nameLocal) := by
  suffices haux : ∀ acc : List (String × String),
      p ∈ langs.foldl (capture_step styleOf) acc →
        p ∈ acc ∨ ∃ lg ∈ langs, ∃ stl, styleOf lg = some stl ∧ p.2 = py_lower stl ∧
          (p.1 = py_lower lg.id ∨ p.1 = py_lower lg.name ∨ p.1 = py_lower lg.nameLocal) by
    rcases haux [] h with hnil | hgood
    · cases hnil
    · exact hgood
  clear h
  induction langs with
  | nil => intro acc hacc; exact Or.inl hacc
  | cons lg rest ih =>
      intro acc hacc
      have hacc' : p ∈ rest.foldl (capture_step styleOf) (capture_step styleOf acc lg) :=
        hacc
      rcases ih (capture_step styleOf acc lg) hacc' with hstep | hrest
      · rw [capture_step] at hstep
        cases hstyle : styleOf lg with
        | none => rw [hstyle] at hstep; exact Or.inl hstep
        | some stl =>
            rw [hstyle] at hstep
            rcases mem_dict_update _ _ p hstep with hm | hentry
            · exact Or.inl hm
            · right
              refine ⟨lg, List.mem_cons_self .., stl, hstyle, ?_⟩
              obtain ⟨attr, hattr, hpe⟩ := List.mem_map.mp hentry
              rw [← hpe]
              fin_cases hattr <;> simp [style_entry, lang_attr]
      · right
        obtain ⟨lg', hlg', rest'⟩ := hrest
        exact ⟨lg', List.mem_cons_of_mem lg hlg', rest'⟩

/-- C10 — Lower-case normalization: every string the facade exposes through
its accessors — document name, snapshot active theme and attached template,
template name and full name — is the lower-casing of whatever the host
reports; every key and value of the captured writing-style map is a
lower-cased host string; and consequently two snapshots whose stored theme
and attached-template strings differ only in letter case (with equal style
maps) compare `==`-equal. -/
theorem lowercase_normalization_spec :
    (∀ r : RawDoc, document_name r = py_lower r.docName) ∧
    (∀ d : LightDocument,
      d.active_theme = py_lower d.activeTheme ∧
        d.attached_template = py_lower d.tmpl) ∧
    (∀ t : RawTmpl,
      template_name t = py_lower t.tmplName ∧
        template_full_name t = py_lower t.fullName) ∧
    (∀ (styleOf : Lang → Option String) (langs : List Lang) (p : String × String),
      p ∈ capture_styles styleOf langs →
        ∃ lg ∈ langs, ∃ stl, styleOf lg = some stl ∧ p.2 = py_lower stl ∧
          (p.1 = py_lower lg.id ∨ p.1 = py_lower lg.name ∨
            p.1 = py_lower lg.nameLocal)) ∧
    (∀ d1 d2 : LightDocument,
      py_lower d1.activeTheme = py_lower d2.activeTheme →
        py_lower d1.tmpl = py_lower d2.tmpl →
          d1.activeWritingStyle = d2.activeWritingStyle →
            light_object_eq d1 d2 = true) := by
  refine ⟨fun r => rfl, fun d => ⟨rfl, rfl⟩, fun t => ⟨rfl, rfl⟩,
    mem_capture_styles, ?_⟩
  intro d1 d2 htheme htmpl hstyle
  rw [light_object_eq_iff]
  exact ⟨htheme, hstyle, htmpl⟩

/-- C10 witness: a captured entry from a mixed-case host language and
style is fully lower-cased, and two snapshots whose stored strings differ
only in case compare equal. -/
theorem lowercase_normalization_witness :
    (("id7", "grammar") ∈
        capture_styles (fun _ => some "Grammar") [⟨"ID7", "En", "English"⟩] ∧
      ∃ lg ∈ [(⟨"ID7", "En", "English"⟩ : Lang)], ∃ stl,
        (fun _ : Lang => some "Grammar") lg = some stl ∧
          ("id7", "grammar").2 = py_lower stl ∧
            (("id7", "grammar").1 = py_lower lg.id ∨
              ("id7", "grammar").1 = py_lower lg.name ∨
                ("id7", "grammar").1 = py_lower lg.nameLocal)) ∧
    light_object_eq ⟨"BLENDS", "N.DOT", []⟩ ⟨"Blends", "n.dot", []⟩ = true := by
  refine ⟨⟨by decide, ?_⟩, ?_⟩
  · exact lowercase_normalization_spec.2.2.2.1 (fun _ => some "Grammar")
      [⟨"ID7", "En", "English"⟩] ("id7", "grammar") (by decide)
  · exact lowercase_normalization_spec.2.2.2.2 ⟨"BLENDS", "N.DOT", []⟩
      ⟨"Blends", "n.dot", []⟩ (by decide) (by decide) rfl
